import Mathlib

/-!
Formal model of the messenger-automation program in `src/main.py`.

The model covers the parts of the program that the specification makes
checkable claims about: the cookie parser `parse_cookies`, the
message-line derivation in `run_automation`, the foreground log drain
`process_queue`, and the background worker `run_automation` itself,
whose externally visible behaviour (log records, browser actions,
driver teardown, terminal sentinel) is modelled as a trace of events
computed from an environment describing the outcome of every external
interaction (file-system checks, driver launch, page navigations,
element lookups, per-call exceptions, stop-flag readings).

Python strings are modelled as Lean strings, and the handful of Python
string primitives the program uses (`strip`, single-character `split`,
`replace("\r\n", "\n")`, slicing, `in`, `split('=', 1)`) are
re-implemented structurally over `String.data` so every definition is
executable and kernel-reducible.  `str.strip()` is modelled on ASCII
whitespace (the program feeds it cookie headers and chat messages);
wall-clock timestamps that `add_log` prepends are not modelled, so a
log event carries the message text handed to `add_log`.
-/

/-- Characters removed by Python `str.strip()` (ASCII whitespace). -/
def pySpace (c : Char) : Bool :=
  c = ' ' || c = '\t' || c = '\n' || c = '\r' || c = '\x0b' || c = '\x0c'

/-- Python `s.strip()` on the character list of a string. -/
def stripChars (l : List Char) : List Char :=
  ((l.dropWhile pySpace).reverse.dropWhile pySpace).reverse

/-- Python `s.split(sep)` for a single-character separator: every
occurrence separates, empty segments are kept, and splitting the empty
string yields one empty segment. -/
def pySplit (sep : Char) : List Char → List (List Char)
  | [] => [[]]
  | c :: rest =>
    match pySplit sep rest with
    | [] => [[]]
    | h :: t => if c = sep then [] :: h :: t else (c :: h) :: t

/-- Python `s.replace("\r\n", "\n")`, left to right. -/
def normNewlines : List Char → List Char
  | [] => []
  | '\r' :: '\n' :: rest => '\n' :: normNewlines rest
  | c :: rest => c :: normNewlines rest

/-- Python `pair.split('=', 1)` when `'='` occurs in `pair`: the part
before the first `'='` and everything after it. -/
def splitFirstEq (s : List Char) : List Char × List Char :=
  (s.takeWhile (fun c => c != '='), (s.dropWhile (fun c => c != '=')).drop 1)

/-- Python slicing `s[:n]` (by code point). -/
def pyTake (n : Nat) (s : String) : String :=
  String.mk (s.data.take n)

/-- A cookie record as built by `parse_cookies` (lines 246-250 of the
source): `name`, `value`, `domain`. -/
structure Cookie where
  name : String
  value : String
  domain : String
deriving DecidableEq, Repr

/-- The structured-format test at the top of `parse_cookies` (line
227): the stripped input starts with a bracket or an opening brace
(code point 123). -/
def isStructured (s : String) : Bool :=
  (stripChars s.data).head? == some '[' || (stripChars s.data).head? == some (Char.ofNat 123)

/-- The accumulation loop of `parse_cookies` (lines 242-250): strip
each segment, skip it if it lacks `'='` or is empty, split it at the
first `'='`, strip key and value, and fix the domain. -/
def parseLoop : List (List Char) → List Cookie
  | [] => []
  | pair :: rest =>
    if (stripChars pair).contains '=' && !(stripChars pair).isEmpty then
      ⟨String.mk (stripChars (splitFirstEq (stripChars pair)).1),
       String.mk (stripChars (splitFirstEq (stripChars pair)).2), ".facebook.com"⟩ ::
        parseLoop rest
    else parseLoop rest

/-- `parse_cookies` (lines 221-254 of the source).  The structured
branch calls `json.loads` (a library outside this repository) and
wraps a single object into a one-element list; that behaviour is
passed in abstractly as `jsonLoads`, where `none` models a parse
exception — which the source catches, logs, and turns into `[]`. -/
def parse_cookies (jsonLoads : String → Option (List Cookie)) (cookie_string : String) :
    List Cookie :=
  if isStructured cookie_string then
    match jsonLoads cookie_string with
    | some data => data
    | none => []
  else
    parseLoop
      (if cookie_string.data.contains ';' then pySplit ';' cookie_string.data
       else if cookie_string.data.contains '\n' || cookie_string.data.contains '\r' then
         pySplit '\n' (normNewlines cookie_string.data)
       else if cookie_string.data.contains ',' && cookie_string.data.contains '=' then
         pySplit ',' cookie_string.data
       else [cookie_string.data])

/-- Spec wording (§4.1): the fixed priority order of delimiters —
semicolon; else newline or carriage return after normalising line
endings; else comma when an equals sign is present; else the whole
string as one segment. -/
def specSegments (s : String) : List (List Char) :=
  if s.data.contains ';' then pySplit ';' s.data
  else if s.data.contains '\n' || s.data.contains '\r' then
    pySplit '\n' (normNewlines s.data)
  else if s.data.contains ',' && s.data.contains '=' then pySplit ',' s.data
  else [s.data]

/-- Spec wording (§4.1): per-segment handling — trim; skip if the
segment has no `'='` or is empty; split at the first `'='` only; trim
key and value; emit a credential with the domain fixed to the target
application root domain. -/
def specEmit (seg : List Char) : Option Cookie :=
  if (stripChars seg).contains '=' && !(stripChars seg).isEmpty then
    some ⟨String.mk (stripChars (splitFirstEq (stripChars seg)).1),
          String.mk (stripChars (splitFirstEq (stripChars seg)).2), ".facebook.com"⟩
  else none

/-- The message-list derivation (line 322 of the source):
`[msg.strip() for msg in messages.split('\n') if msg.strip()]`. -/
def messageLines (messages : String) : List String :=
  (((pySplit '\n' messages.data).map stripChars).filter (fun m => !m.isEmpty)).map String.mk

/-- `process_queue` (lines 144-161): the foreground drain.  `logs` is
the retained record list, `queued` the drained records in arrival
(emission) order; every queued record is appended, then only the most
recent 100 records are retained. -/
def process_queue (logs queued : List String) : List String :=
  let logs2 := logs ++ queued
  if logs2.length > 100 then logs2.drop (logs2.length - 100) else logs2

/-- Observable actions of the background worker: log records handed to
`add_log` (without the wall-clock prefix), browser-driver actions, the
teardown `driver.quit()` call, and the terminal sentinel record
`---THREAD_FINISHED---` put on the queue from the `finally` block. -/
inductive Event where
  | log : String → Event
  | installChrome : Event
  | openDriver : Event
  | navigate : String → Event
  | addCookie : String → Event
  | click : Event
  | selectAll : Event
  | deleteKeys : Event
  | typeText : String → Event
  | pressEnter : Event
  | quit : Event
  | sentinel : Event
deriving DecidableEq, Repr

/-- Per-message outcome of one iteration of the dispatch loop. -/
inductive Outcome where
  | sent : Outcome
  | skippedNoInput : Outcome
  | skippedError : Outcome
deriving DecidableEq, Repr

/-- Environment of one `Sending(i)` iteration: the value the iteration
reads from the shared stop flag, the behaviour of
`driver.find_elements` per CSS selector (`none` models a raised
exception, `some n` a result list of length `n`), whether and where
the clear/type/submit protocol raises (step 0 = click, 1 = select-all,
2 = delete, 3 = type the text, 4 = the confirm key), and the text of
the raised error. -/
structure MsgEnv where
  stopFlag : Bool
  find : String → Option Nat
  failStep : Option (Fin 5)
  errMsg : String

/-- The fixed, ordered fallback list of CSS locator strategies (lines
325-334 of the source). -/
def selectors : List String :=
  ["div[contenteditable=\"true\"][role=\"textbox\"]",
   "div[aria-label*=\"message\" i][contenteditable=\"true\"]",
   "div[data-lexical-editor=\"true\"]",
   "div.notranslate[contenteditable=\"true\"]",
   "div[contenteditable=\"true\"]",
   "textarea[placeholder*=\"message\" i]",
   "div[role=\"textbox\"]",
   "div[aria-label*=\"Type a message\" i]"]

/-- The selector fallback loop (lines 348-356): try each strategy in
order; an exception in `find_elements` is swallowed and the next
strategy tried; the first strategy returning a non-empty list wins.
Returns the 1-based index of the winning strategy and its match count,
or `none` when every strategy yields no element. -/
def resolveInput (find : String → Option Nat) : List String → Nat → Option (Nat × Nat)
  | [], _ => none
  | sel :: rest, i =>
    match find sel with
    | none => resolveInput find rest (i + 1)
    | some n => if n > 0 then some (i, n) else resolveInput find rest (i + 1)

/-- The outcome of one attempted message, determined by that message's
own environment alone: no input element resolved, an exception in the
clear/type/submit protocol, or a completed send. -/
def msgOutcome (e : MsgEnv) : Outcome :=
  match resolveInput e.find selectors 1 with
  | none => Outcome.skippedNoInput
  | some _ =>
    match e.failStep with
    | none => Outcome.sent
    | some _ => Outcome.skippedError

/-- The clear/type/submit actions in source order (lines 364-379):
click, select-all, delete, type the message, the `📤 Sending...` log,
the confirm key. -/
def protocolSteps (msg : String) : List Event :=
  [Event.click, Event.selectAll, Event.deleteKeys, Event.typeText msg,
   Event.log "📤 Sending...", Event.pressEnter]

/-- Events of the clear/type/submit protocol: on success all steps run
and the success log is emitted; an exception at step `k` cuts the step
list short (an exception at the confirm key, step 4, happens after the
`📤 Sending...` log) and is caught by the per-message handler, which
logs the error text truncated to 100 characters (line 385). -/
def protocolEvents (msg : String) (failStep : Option (Fin 5)) (errMsg : String)
    (dispIdx : Nat) : List Event :=
  match failStep with
  | none => protocolSteps msg ++ [Event.log ("✅ Message " ++ toString dispIdx ++ " sent!")]
  | some k =>
    (protocolSteps msg).take (if k.val < 4 then k.val else 5) ++
      [Event.log ("❌ Error: " ++ pyTake 100 errMsg)]

/-- One non-stopped iteration of the dispatch loop (lines 343-387):
the header log, element resolution with its logs, and either the skip
log or the send protocol.  The second component is the iteration's
outcome. -/
def processMsg (e : MsgEnv) (msg : String) (dispIdx total : Nat) : List Event × Outcome :=
  (Event.log ("🎯 Message " ++ toString dispIdx ++ "/" ++ toString total) ::
    (match resolveInput e.find selectors 1 with
     | none => [Event.log "❌ Message input not found"]
     | some r =>
       [Event.log ("✅ Selector " ++ toString r.1 ++ ": " ++ toString r.2 ++ " found"),
        Event.log ("⌨️ Typing: " ++ pyTake 50 msg ++ "...")] ++
       protocolEvents msg e.failStep e.errMsg dispIdx),
   msgOutcome e)

/-- The dispatch loop (lines 336-387): before each message the shared
stop flag is re-read (`env i` is the reading before 0-based message
`i`); when set, the loop logs `⏹️ Stopped by user` and breaks.
Returns the emitted events, the per-message outcomes of the attempted
messages, and the `is_stop_requested` flag. -/
def runMsgs (env : Nat → MsgEnv) (total : Nat) :
    List String → Nat → List Event × List Outcome × Bool
  | [], _ => ([], [], false)
  | msg :: rest, i =>
    if (env i).stopFlag = true then ([Event.log "⏹️ Stopped by user"], [], true)
    else
      let p := processMsg (env i) msg (i + 1) total
      let r := runMsgs env total rest (i + 1)
      (p.1 ++ r.1, p.2 :: r.2.1, r.2.2)

/-- Environment of one whole run: the stop-flag reading at worker
entry (line 274), whether `/usr/bin/google-chrome` exists, the result
of `install_chrome`, whether `setup_chrome_driver` returns a driver,
the page title, whether `driver.get` raises on the two navigations
(`some e` models an exception with text `e`, caught by the outer
handler on line 392), the abstract `json.loads`, whether
`driver.add_cookie` raises for the i-th cookie, the value of
`driver.current_url` after navigating to the conversation, the
per-iteration message environments, and whether `driver.quit`
raises. -/
structure RunEnv where
  stopAtStart : Bool
  chromePresent : Bool
  installOk : Bool
  driverOk : Bool
  pageTitle : String
  navFail : Option String
  jsonLoads : String → Option (List Cookie)
  cookieAddFails : Nat → Bool
  threadNavFail : Option String
  currentUrl : String
  msgEnv : Nat → MsgEnv
  quitFails : Bool

/-- `install_chrome` (lines 164-186): logs, runs the installer
subprocesses, and logs success or failure (the source appends the
exception text to the failure log; the model keeps the fixed
prefix). -/
def install_chrome (ok : Bool) : List Event :=
  if ok then
    [Event.log "🔧 Installing Chrome...", Event.installChrome,
     Event.log "✅ Chrome installed successfully (or installation attempted)!"]
  else
    [Event.log "🔧 Installing Chrome...", Event.installChrome,
     Event.log "❌ Chrome installation failed"]

/-- `setup_chrome_driver` (lines 188-219): either a driver is created
and the success log emitted, or the exception handler logs the failure
(exception text abstracted away) and `None` is returned. -/
def setup_chrome_driver (ok : Bool) : List Event :=
  if ok then [Event.openDriver, Event.log "✅ ChromeDriver setup completed!"]
  else [Event.log "❌ ChromeDriver setup failed"]

/-- The cookie-injection loop (lines 306-311): each cookie is applied
independently; a raised `add_cookie` is caught and logged as a warning
and never aborts the batch. -/
def addCookieEvents (fails : Nat → Bool) : List Cookie → Nat → List Event
  | [], _ => []
  | c :: rest, i =>
    (if fails i then [Event.log ("⚠️ Cookie failed: " ++ c.name)]
     else [Event.addCookie c.name, Event.log ("✅ Cookie: " ++ pyTake 20 c.name)]) ++
    addCookieEvents fails rest (i + 1)

/-- Lines 322-390: everything after the conversation navigation
succeeded — the message-count log, the dispatch loop, and the
completion log when the loop was not stopped. -/
def afterThreadNav (env : RunEnv) (messages : String) : List Event :=
  Event.log ("📝 Messages to send: " ++ toString (messageLines messages).length) ::
    ((runMsgs env.msgEnv (messageLines messages).length (messageLines messages) 0).1 ++
     (if (runMsgs env.msgEnv (messageLines messages).length (messageLines messages) 0).2.2
      then [] else [Event.log "🎉 Automation completed!"]))

/-- Lines 299-390: cookie parsing and injection, then the conversation
navigation.  An empty parse aborts the run with a log; the resulting
URL is logged as-is; an exception in `driver.get` reaches the outer
handler. -/
def afterNav (env : RunEnv) (cookies_str messages thread_id : String) : List Event :=
  if parse_cookies env.jsonLoads cookies_str = [] then [Event.log "❌ Failed to parse cookies"]
  else
    Event.log ("🍪 Adding " ++ toString (parse_cookies env.jsonLoads cookies_str).length ++
        " cookies...") ::
      (addCookieEvents env.cookieAddFails (parse_cookies env.jsonLoads cookies_str) 0 ++
       (Event.log ("💬 Opening conversation: " ++ thread_id) ::
        match env.threadNavFail with
        | some e => [Event.log ("❌ Critical error: " ++ pyTake 100 e)]
        | none =>
          Event.navigate ("https://www.facebook.com/messages/t/" ++ thread_id) ::
            Event.log ("🔗 URL: " ++ env.currentUrl) :: afterThreadNav env messages))

/-- Lines 289-390: after the driver was created — the initial
navigation to the site, the page-title log, then `afterNav`. -/
def afterDriver (env : RunEnv) (cookies_str messages thread_id : String) : List Event :=
  Event.log "✅ Chrome setup completed!" :: Event.log "🌐 Navigating to Facebook..." ::
    (match env.navFail with
     | some e => [Event.log ("❌ Critical error: " ++ pyTake 100 e)]
     | none =>
       Event.navigate "https://www.facebook.com" ::
         Event.log ("📄 Page loaded: " ++ pyTake 50 env.pageTitle) ::
         afterNav env cookies_str messages thread_id)

/-- The `try` body of `run_automation` (lines 269-390): the entry
logs, the stop check at worker entry, conditional Chrome
installation, driver setup, and the rest of the run. -/
def runBody (env : RunEnv) (cookies_str messages thread_id : String) : List Event :=
  Event.log "🚀 Starting automation..." :: Event.log "⚙️ Setting up Chrome browser..." ::
    (if env.stopAtStart then [Event.log "⏹️ Automation cancelled before start by user."]
     else
       (if env.chromePresent then [] else install_chrome env.installOk) ++
       (if !env.chromePresent && !env.installOk then
          [Event.log "❌ Chrome installation required but failed"]
        else
          setup_chrome_driver env.driverOk ++
          (if env.driverOk then afterDriver env cookies_str messages thread_id
           else [Event.log "❌ Chrome setup failed"])))

/-- Whether the local `driver` variable holds a live driver when the
`finally` block runs: the run was not cancelled at entry, Chrome was
present or its installation reported success, and driver creation
succeeded. -/
def driverOpened (env : RunEnv) : Bool :=
  !env.stopAtStart && (env.chromePresent || env.installOk) && env.driverOk

/-- The `finally` block before the sentinel (lines 395-401): when a
driver exists, `driver.quit()` is invoked inside its own swallowing
handler, and the `🔒 Browser closed` log is emitted unless `quit`
itself raised. -/
def teardownPre (env : RunEnv) : List Event :=
  if driverOpened env then
    Event.quit :: (if env.quitFails then [] else [Event.log "🔒 Browser closed"])
  else []

/-- The whole `finally` block (lines 395-406): conditional teardown,
then the sentinel record is put on the queue. -/
def teardown (env : RunEnv) : List Event :=
  teardownPre env ++ [Event.sentinel]

/-- `run_automation` (lines 260-406): the `try` body followed by the
`finally` block.  The `delay` parameter only feeds `time.sleep` in the
source and produces no observable event. -/
def run_automation (env : RunEnv) (cookies_str messages thread_id : String)
    (delay : Nat) : List Event :=
  runBody env cookies_str messages thread_id ++ teardown env

/-- Number of occurrences of an event in a trace. -/
def countEv (a : Event) : List Event → Nat
  | [] => 0
  | e :: l => (if e = a then 1 else 0) + countEv a l

/-- A message environment for an iteration that succeeds: stop flag
clear, the first selector matches one element, no exception. -/
def okMsg : MsgEnv :=
  ⟨false, fun _ => some 1, none, ""⟩

/-- A message environment whose stop-flag reading is set. -/
def stopMsg : MsgEnv :=
  ⟨true, fun _ => some 1, none, ""⟩

/-- A message environment where every locator strategy yields zero
matches. -/
def noInputMsg : MsgEnv :=
  ⟨false, fun _ => some 0, none, ""⟩

/-- Stop flag read as set from the second iteration on. -/
def env1 : Nat → MsgEnv := fun i => if i = 0 then okMsg else stopMsg

/-- First message fails element resolution, later ones succeed. -/
def env2 : Nat → MsgEnv := fun i => if i = 0 then noInputMsg else okMsg

/-- A run environment in which every external interaction succeeds. -/
def okEnv : RunEnv :=
  { stopAtStart := false, chromePresent := true, installOk := true, driverOk := true,
    pageTitle := "Facebook", navFail := none, jsonLoads := fun _ => none,
    cookieAddFails := fun _ => false, threadNavFail := none,
    currentUrl := "https://www.facebook.com/messages/t/555",
    msgEnv := fun _ => okMsg, quitFails := false }

/-- A fully successful run whose conversation navigation lands on the
login page. -/
def loginEnv : RunEnv :=
  { okEnv with currentUrl := "https://www.facebook.com/login/" }

/-- A run whose stop flag is already set when the worker starts. -/
def stopEnv : RunEnv :=
  { okEnv with stopAtStart := true }

/-- Events a dispatch-loop iteration can produce. -/
def loopEvent : Event → Bool
  | Event.log _ => true
  | Event.click => true
  | Event.selectAll => true
  | Event.deleteKeys => true
  | Event.typeText _ => true
  | Event.pressEnter => true
  | _ => false

/-- Events possible after the driver exists: anything except driver
creation, installation, teardown and the sentinel. -/
def pageEvent : Event → Bool
  | Event.quit => false
  | Event.sentinel => false
  | Event.openDriver => false
  | Event.installChrome => false
  | _ => true

/-- Events possible inside the `try` body: anything except teardown
and the sentinel. -/
def bodyEvent : Event → Bool
  | Event.quit => false
  | Event.sentinel => false
  | _ => true

theorem parseLoop_eq_filterMap (l : List (List Char)) :
    parseLoop l = l.filterMap specEmit := by
  induction l with
  | nil => rfl
  | cons pair rest ih =>
    by_cases h : ((stripChars pair).contains '=' && !(stripChars pair).isEmpty) = true
    · have hE : specEmit pair = some ⟨String.mk (stripChars (splitFirstEq (stripChars pair)).1),
          String.mk (stripChars (splitFirstEq (stripChars pair)).2), ".facebook.com"⟩ := by
        simp only [specEmit]
        rw [if_pos h]
      rw [List.filterMap_cons, hE]
      simp only [parseLoop]
      rw [if_pos h, ih]
    · have hE : specEmit pair = none := by
        simp only [specEmit]
        rw [if_neg h]
      rw [List.filterMap_cons, hE]
      simp only [parseLoop]
      rw [if_neg h, ih]

theorem parse_cookies_delim (jsonLoads : String → Option (List Cookie)) (s : String)
    (h : isStructured s = false) :
    parse_cookies jsonLoads s = (specSegments s).filterMap specEmit := by
  have hseg : parse_cookies jsonLoads s = parseLoop (specSegments s) := by
    simp only [parse_cookies, specSegments, h, Bool.false_eq_true, if_false]
  rw [hseg, parseLoop_eq_filterMap]

theorem splitFirstEq_append (l1 l2 : List Char) (h : l1.contains '=' = false) :
    splitFirstEq (l1 ++ '=' :: l2) = (l1, l2) := by
  induction l1 with
  | nil => simp [splitFirstEq]
  | cons c t ih =>
    simp only [List.contains_cons, Bool.or_eq_false_iff] at h
    have hne : c ≠ '=' := by
      intro hcc
      subst hcc
      simp at h
    have hc : (c != '=') = true := bne_iff_ne.mpr hne
    have ih' := ih h.2
    simp only [splitFirstEq, Prod.mk.injEq] at ih' ⊢
    constructor
    · simpa [List.takeWhile_cons, hc] using ih'.1
    · simpa [List.dropWhile_cons, hc] using ih'.2

/-- C6: on the delimited parsing paths (fixed priority order:
semicolon, newline, comma-with-equals, else single entry) the parser
trims each segment, skips empty or `'='`-free segments, splits each
remaining segment at the first `'='` only into a trimmed name and a
trimmed value (values may contain further `'='`), fixes each emitted
domain to the application root domain, and emits in split order. -/
theorem delimited_parse_follows_spec (jsonLoads : String → Option (List Cookie))
    (s : String) (h : isStructured s = false) :
    parse_cookies jsonLoads s = (specSegments s).filterMap specEmit ∧
    (∀ c ∈ parse_cookies jsonLoads s, c.domain = ".facebook.com") ∧
    (∀ l1 l2 : List Char, l1.contains '=' = false →
      splitFirstEq (l1 ++ '=' :: l2) = (l1, l2)) := by
  refine ⟨parse_cookies_delim jsonLoads s h, ?_, fun l1 l2 hl => splitFirstEq_append l1 l2 hl⟩
  intro c hc
  rw [parse_cookies_delim jsonLoads s h] at hc
  obtain ⟨seg, _, hemit⟩ := List.mem_filterMap.mp hc
  by_cases hcond : ((stripChars seg).contains '=' && !(stripChars seg).isEmpty) = true
  · simp only [specEmit] at hemit
    rw [if_pos hcond] at hemit
    cases hemit
    rfl
  · simp only [specEmit] at hemit
    rw [if_neg hcond] at hemit
    cases hemit

theorem delimited_parse_follows_spec_w :
    parse_cookies (fun _ => none) "c_user=123; xs=abc" =
      (specSegments "c_user=123; xs=abc").filterMap specEmit :=
  (delimited_parse_follows_spec (fun _ => none) "c_user=123; xs=abc" (by decide)).1

/-- C5 fails as stated: on the single-entry delimited path the input
`"=abc"` produces one credential whose trimmed name is empty — the
parser skips only segments with no `'='` at all and never checks that
text exists on both sides of the first `'='`. -/
theorem empty_name_credential_cex :
    ¬ (∀ c ∈ parse_cookies (fun _ => none) "=abc",
        stripChars c.name.data ≠ [] ∧ stripChars c.value.data ≠ []) := by
  decide

/-- C5 (amended): every element returned on a delimited path arises
from a segment that, after trimming, is non-empty and contains `'='`,
as the trimmed parts around that segment's first `'='` with the domain
fixed — but the trimmed name or value may be empty (no non-emptiness
guarantee). -/
theorem delimited_credentials_from_segments (jsonLoads : String → Option (List Cookie))
    (s : String) (h : isStructured s = false) :
    ∀ c ∈ parse_cookies jsonLoads s, ∃ seg ∈ specSegments s,
      (stripChars seg).contains '=' = true ∧ stripChars seg ≠ [] ∧ specEmit seg = some c := by
  intro c hc
  rw [parse_cookies_delim jsonLoads s h] at hc
  obtain ⟨seg, hseg, hemit⟩ := List.mem_filterMap.mp hc
  refine ⟨seg, hseg, ?_, ?_, hemit⟩
  · by_cases hcond : ((stripChars seg).contains '=' && !(stripChars seg).isEmpty) = true
    · exact (Bool.and_eq_true_iff.mp hcond).1
    · simp only [specEmit] at hemit
      rw [if_neg hcond] at hemit
      cases hemit
  · by_cases hcond : ((stripChars seg).contains '=' && !(stripChars seg).isEmpty) = true
    · have := (Bool.and_eq_true_iff.mp hcond).2
      simpa using this
    · simp only [specEmit] at hemit
      rw [if_neg hcond] at hemit
      cases hemit

theorem delimited_credentials_from_segments_w :
    ∃ seg ∈ specSegments "c_user=123", (stripChars seg).contains '=' = true ∧
      stripChars seg ≠ [] ∧ specEmit seg = some ⟨"c_user", "123", ".facebook.com"⟩ :=
  delimited_credentials_from_segments (fun _ => none) "c_user=123" (by decide)
    ⟨"c_user", "123", ".facebook.com"⟩ (by decide)

/-- C7: the parser never raises to its caller — empty input,
whitespace-only input, and a structured-looking input whose structured
parse fails all yield an empty list. -/
theorem normalize_returns_empty_on_bad_input (jsonLoads : String → Option (List Cookie)) :
    parse_cookies jsonLoads "" = [] ∧
    parse_cookies jsonLoads "   " = [] ∧
    ∀ s, isStructured s = true → jsonLoads s = none → parse_cookies jsonLoads s = [] := by
  refine ⟨rfl, rfl, ?_⟩
  intro s h1 h2
  simp [parse_cookies, h1, h2]

theorem normalize_returns_empty_on_bad_input_w :
    parse_cookies (fun _ => none) "[broken json" = [] :=
  (normalize_returns_empty_on_bad_input (fun _ => none)).2.2 "[broken json" (by decide) rfl

/-- C8 fails as literally stated: the code additionally trims each
retained line, so the dispatched list is not the raw split with blank
lines discarded — on `" Hi \nBye"` the code yields `["Hi", "Bye"]`,
not `[" Hi ", "Bye"]`. -/
theorem message_lines_trimmed_cex :
    messageLines " Hi \nBye" = ["Hi", "Bye"] ∧
    messageLines " Hi \nBye" ≠
      ((pySplit '\n' (" Hi \nBye").data).filter (fun l => !(stripChars l).isEmpty)).map
        String.mk := by
  decide

/-- C8 (amended): the dispatched list is obtained by splitting on
newline, trimming each line, and discarding lines that are blank after
trimming, preserving input order — it is a sublist of the trimmed
split lines, contains no empty string, and the cited example yields
exactly the cited list. -/
theorem message_lines_amended :
    messageLines "Hello!\nHow are you?\n\nBye" = ["Hello!", "How are you?", "Bye"] ∧
    (∀ s : String,
      List.Sublist (messageLines s) (((pySplit '\n' s.data).map stripChars).map String.mk)) ∧
    (∀ s : String, ∀ m ∈ messageLines s, m ≠ "") := by
  refine ⟨by decide, ?_, ?_⟩
  · intro s
    exact ((List.filter_sublist _).map String.mk)
  · intro s m hm
    simp only [messageLines, List.mem_map, List.mem_filter] at hm
    obtain ⟨l, ⟨_, hne⟩, rfl⟩ := hm
    intro he
    have : l = [] := congrArg String.data he
    subst this
    simp at hne

theorem message_lines_amended_w : "Hi" ≠ "" :=
  message_lines_amended.2.2 " Hi \n" "Hi" (by decide)

theorem process_queue_length_le (logs queued : List String) :
    (process_queue logs queued).length ≤ 100 := by
  by_cases h : (logs ++ queued).length > 100
  · simp only [process_queue, if_pos h]
    simp only [List.length_drop]
    omega
  · simp only [process_queue, if_neg h]
    omega

/-- C9: after every drain the retained list holds the most recent
`min(total, 100)` records — it is a suffix of the full emission-order
sequence (so oldest are discarded first and FIFO order is kept), and
iterating drains from an empty retained list never exceeds 100
records regardless of emission volume. -/
theorem log_ring_bounded_fifo :
    (∀ logs queued : List String,
      (process_queue logs queued).length = min (logs.length + queued.length) 100 ∧
      process_queue logs queued <:+ logs ++ queued) ∧
    ∀ batches : List (List String), (batches.foldl process_queue []).length ≤ 100 := by
  constructor
  · intro logs queued
    constructor
    · by_cases h : (logs ++ queued).length > 100
      · simp only [process_queue, if_pos h]
        simp only [List.length_drop, List.length_append] at h ⊢
        omega
      · simp only [process_queue, if_neg h]
        simp only [List.length_append] at h ⊢
        omega
    · by_cases h : (logs ++ queued).length > 100
      · simp only [process_queue, if_pos h]
        exact List.drop_suffix _ _
      · simp only [process_queue, if_neg h]
        exact List.suffix_refl _
  · intro batches
    induction batches using List.reverseRecOn with
    | nil => simp
    | append_singleton l b ih =>
      rw [List.foldl_append]
      simpa using process_queue_length_le _ _

theorem runMsgs_outcome_get (env : Nat → MsgEnv) (total : Nat) :
    ∀ (msgs : List String) (s j : Nat) (hj : j < (runMsgs env total msgs s).2.1.length),
      (runMsgs env total msgs s).2.1.get ⟨j, hj⟩ = msgOutcome (env (s + j)) := by
  intro msgs
  induction msgs with
  | nil =>
    intro s j hj
    simp [runMsgs] at hj
  | cons m rest ih =>
    intro s j hj
    by_cases hstop : (env s).stopFlag = true
    · simp [runMsgs, hstop] at hj
    · rcases j with _ | j'
      · simp [runMsgs, hstop, processMsg]
      · have hj' : j' < (runMsgs env total rest (s + 1)).2.1.length := by
          simp [runMsgs, hstop] at hj
          omega
        have hrec := ih (s + 1) j' hj'
        have harith : s + 1 + j' = s + (j' + 1) := by omega
        rw [harith] at hrec
        simpa [runMsgs, hstop] using hrec

theorem runMsgs_length_le_stop (env : Nat → MsgEnv) (total : Nat) :
    ∀ (msgs : List String) (s i : Nat), (env (s + i)).stopFlag = true →
      (runMsgs env total msgs s).2.1.length ≤ i := by
  intro msgs
  induction msgs with
  | nil =>
    intro s i _
    simp [runMsgs]
  | cons m rest ih =>
    intro s i hstop
    by_cases h0 : (env s).stopFlag = true
    · simp [runMsgs, h0]
    · rcases i with _ | i'
      · rw [Nat.add_zero] at hstop
        exact absurd hstop h0
      · have hrec := ih (s + 1) i' (by rw [show s + 1 + i' = s + (i' + 1) by omega]; exact hstop)
        simp [runMsgs, h0]
        omega

theorem runMsgs_stopped (env : Nat → MsgEnv) (total : Nat) :
    ∀ (msgs : List String) (s i : Nat), i < msgs.length → (env (s + i)).stopFlag = true →
      (runMsgs env total msgs s).2.2 = true := by
  intro msgs
  induction msgs with
  | nil =>
    intro s i hi _
    simp at hi
  | cons m rest ih =>
    intro s i hi hstop
    by_cases h0 : (env s).stopFlag = true
    · simp [runMsgs, h0]
    · rcases i with _ | i'
      · rw [Nat.add_zero] at hstop
        exact absurd hstop h0
      · have hi' : i' < rest.length := by
          simp at hi
          omega
        have hrec := ih (s + 1) i' hi'
          (by rw [show s + 1 + i' = s + (i' + 1) by omega]; exact hstop)
        simpa [runMsgs, h0] using hrec

theorem runMsgs_length_ge (env : Nat → MsgEnv) (total : Nat) :
    ∀ (msgs : List String) (s n : Nat), n ≤ msgs.length →
      (∀ j, j < n → (env (s + j)).stopFlag = false) →
      n ≤ (runMsgs env total msgs s).2.1.length := by
  intro msgs
  induction msgs with
  | nil =>
    intro s n hn _
    simp at hn
    simp [runMsgs, hn]
  | cons m rest ih =>
    intro s n hn hflags
    rcases n with _ | n'
    · exact Nat.zero_le _
    · have h0 : (env s).stopFlag = false := by
        simpa using hflags 0 (Nat.succ_pos _)
    
      have hrec := ih (s + 1) n' (by simp at hn; omega) (by
        intro j hj
        rw [show s + 1 + j = s + (j + 1) by omega]
        exact hflags (j + 1) (by omega))
      simp [runMsgs, h0]
      omega

theorem mem_runMsgs_of_processMsg (env : Nat → MsgEnv) (total : Nat) :
    ∀ (msgs : List String) (s i : Nat) (hi : i < msgs.length),
      (∀ j, j ≤ i → (env (s + j)).stopFlag = false) →
      ∀ x ∈ (processMsg (env (s + i)) (msgs.get ⟨i, hi⟩) (s + i + 1) total).1,
        x ∈ (runMsgs env total msgs s).1 := by
  intro msgs
  induction msgs with
  | nil =>
    intro s i hi
    simp at hi
  | cons m rest ih =>
    intro s i hi hflags x hx
    have h0 : (env s).stopFlag = false := by simpa using hflags 0 (Nat.zero_le _)
    have hgoal : (runMsgs env total (m :: rest) s).1 =
        (processMsg (env s) m (s + 1) total).1 ++ (runMsgs env total rest (s + 1)).1 := by
      simp [runMsgs, h0]
    rw [hgoal]
    rcases i with _ | i'
    · apply List.mem_append_left
      simpa using hx
    · have hi' : i' < rest.length := by
        simp at hi
        omega
      have hx' : x ∈ (processMsg (env (s + 1 + i')) (rest.get ⟨i', hi'⟩)
          (s + 1 + i' + 1) total).1 := by
        rw [show s + 1 + i' = s + (i' + 1) by omega,
            show s + (i' + 1) + 1 = s + (i' + 1) + 1 by rfl]
        simpa using hx
      apply List.mem_append_right
      exact ih (s + 1) i' hi' (by
        intro j hj
        rw [show s + 1 + j = s + (j + 1) by omega]
        exact hflags (j + 1) (by omega)) x hx'

theorem noInput_log_mem (e : MsgEnv) (msg : String) (d t : Nat)
    (h : msgOutcome e = Outcome.skippedNoInput) :
    Event.log "❌ Message input not found" ∈ (processMsg e msg d t).1 := by
  unfold processMsg
  cases hr : resolveInput e.find selectors 1 with
  | none => simp [hr]
  | some r =>
    exfalso
    unfold msgOutcome at h
    rw [hr] at h
    cases hf : e.failStep <;> rw [hf] at h <;> simp at h

theorem errLog_mem (e : MsgEnv) (msg : String) (d t : Nat)
    (h : msgOutcome e = Outcome.skippedError) :
    Event.log ("❌ Error: " ++ pyTake 100 e.errMsg) ∈ (processMsg e msg d t).1 := by
  unfold processMsg
  cases hr : resolveInput e.find selectors 1 with
  | none =>
    exfalso
    unfold msgOutcome at h
    rw [hr] at h
    simp at h
  | some r =>
    cases hf : e.failStep with
    | none =>
      exfalso
      unfold msgOutcome at h
      rw [hr] at h
      simp [hf] at h
    | some k =>
      simp [hr, hf, protocolEvents]

/-- C1: if the shared stop flag reads set before the `Sending(i)`
iteration begins, the dispatch loop transitions to the stopped state
without attempting message `i`: at most `i` outcomes are produced, the
loop reports being stopped, and every outcome that was produced equals
the outcome determined by that message's own iteration environment, so
the send outcomes of messages below `i` are unchanged. -/
theorem stop_flag_halts_dispatch (env : Nat → MsgEnv) (total : Nat) (msgs : List String)
    (i : Nat) (hi : i < msgs.length) (hstop : (env i).stopFlag = true) :
    (runMsgs env total msgs 0).2.1.length ≤ i ∧
    (runMsgs env total msgs 0).2.2 = true ∧
    ∀ j (hj : j < (runMsgs env total msgs 0).2.1.length),
      (runMsgs env total msgs 0).2.1.get ⟨j, hj⟩ = msgOutcome (env j) := by
  refine ⟨?_, ?_, ?_⟩
  · exact runMsgs_length_le_stop env total msgs 0 i (by simpa using hstop)
  · exact runMsgs_stopped env total msgs 0 i hi (by simpa using hstop)
  · intro j hj
    simpa using runMsgs_outcome_get env total msgs 0 j hj

theorem stop_flag_halts_dispatch_w :
    (runMsgs env1 2 ["a", "b"] 0).2.1.length ≤ 1 ∧
    (runMsgs env1 2 ["a", "b"] 0).2.2 = true :=
  ⟨(stop_flag_halts_dispatch env1 2 ["a", "b"] 1 (by decide) rfl).1,
   (stop_flag_halts_dispatch env1 2 ["a", "b"] 1 (by decide) rfl).2.1⟩

/-- C2: a failure while processing message `i` — every locator
strategy yielding zero matches, or an exception in the clear/type/
submit protocol — is confined to message `i`: the failure is logged,
the outcome recorded at index `i` is that message's own (non-sent)
outcome, and message `i+1` is still attempted with its own outcome. -/
theorem message_failure_confined (env : Nat → MsgEnv) (total : Nat) (msgs : List String)
    (i : Nat) (hi : i + 1 < msgs.length)
    (hns : ∀ j, j ≤ i + 1 → (env j).stopFlag = false)
    (hfail : msgOutcome (env i) ≠ Outcome.sent) :
    i + 1 < (runMsgs env total msgs 0).2.1.length ∧
    (runMsgs env total msgs 0).2.1.get? i = some (msgOutcome (env i)) ∧
    (runMsgs env total msgs 0).2.1.get? (i + 1) = some (msgOutcome (env (i + 1))) ∧
    (msgOutcome (env i) = Outcome.skippedNoInput →
      Event.log "❌ Message input not found" ∈ (runMsgs env total msgs 0).1) ∧
    (msgOutcome (env i) = Outcome.skippedError →
      Event.log ("❌ Error: " ++ pyTake 100 (env i).errMsg) ∈ (runMsgs env total msgs 0).1) := by
  have hlen : i + 2 ≤ (runMsgs env total msgs 0).2.1.length := by
    apply runMsgs_length_ge env total msgs 0 (i + 2) (by omega)
    intro j hj
    simpa using hns j (by omega)
  refine ⟨by omega, ?_, ?_, ?_, ?_⟩
  · have h1 : i < (runMsgs env total msgs 0).2.1.length := by omega
    rw [List.get?_eq_get h1]
    have := runMsgs_outcome_get env total msgs 0 i h1
    simpa using this
  · have h2 : i + 1 < (runMsgs env total msgs 0).2.1.length := by omega
    rw [List.get?_eq_get h2]
    have := runMsgs_outcome_get env total msgs 0 (i + 1) h2
    simpa using this
  · intro hcase
    have hx := noInput_log_mem (env (0 + i)) (msgs.get ⟨i, by omega⟩) (0 + i + 1) total
      (by simpa using hcase)
    exact mem_runMsgs_of_processMsg env total msgs 0 i (by omega)
      (fun j hj => by simpa using hns j (by omega)) _ hx
  · intro hcase
    have hx := errLog_mem (env (0 + i)) (msgs.get ⟨i, by omega⟩) (0 + i + 1) total
      (by simpa using hcase)
    have hmem := mem_runMsgs_of_processMsg env total msgs 0 i (by omega)
      (fun j hj => by simpa using hns j (by omega)) _ hx
    simpa using hmem

theorem message_failure_confined_w :
    1 < (runMsgs env2 2 ["a", "b"] 0).2.1.length ∧
    Event.log "❌ Message input not found" ∈ (runMsgs env2 2 ["a", "b"] 0).1 :=
  ⟨(message_failure_confined env2 2 ["a", "b"] 0 (by decide)
      (by intro j hj; cases j <;> rfl) (by decide)).1,
   (message_failure_confined env2 2 ["a", "b"] 0 (by decide)
      (by intro j hj; cases j <;> rfl) (by decide)).2.2.2.1 (by decide)⟩

theorem loopEvent_protocolSteps (msg : String) :
    ∀ x ∈ protocolSteps msg, loopEvent x = true := by
  intro x hx
  simp only [protocolSteps, List.mem_cons, List.not_mem_nil, or_false] at hx
  rcases hx with rfl | rfl | rfl | rfl | rfl | rfl <;> rfl

theorem loopEvent_protocolEvents (msg : String) (fs : Option (Fin 5)) (err : String)
    (d : Nat) : ∀ x ∈ protocolEvents msg fs err d, loopEvent x = true := by
  intro x hx
  cases fs with
  | none =>
    simp only [protocolEvents, List.mem_append, List.mem_singleton] at hx
    rcases hx with hx | rfl
    · exact loopEvent_protocolSteps msg x hx
    · rfl
  | some k =>
    simp only [protocolEvents, List.mem_append, List.mem_singleton] at hx
    rcases hx with hx | rfl
    · exact loopEvent_protocolSteps msg x (List.Sublist.subset (List.take_sublist _ _) hx)
    · rfl

theorem loopEvent_processMsg (e : MsgEnv) (msg : String) (d t : Nat) :
    ∀ x ∈ (processMsg e msg d t).1, loopEvent x = true := by
  intro x hx
  unfold processMsg at hx
  cases hr : resolveInput e.find selectors 1 with
  | none =>
    rw [hr] at hx
    simp only [List.mem_cons, List.not_mem_nil, or_false] at hx
    rcases hx with rfl | rfl <;> rfl
  | some r =>
    rw [hr] at hx
    simp only [List.cons_append, List.nil_append, List.mem_cons] at hx
    rcases hx with rfl | rfl | rfl | hx
    · rfl
    · rfl
    · rfl
    · exact loopEvent_protocolEvents msg e.failStep e.errMsg d x hx

theorem loopEvent_runMsgs (env : Nat → MsgEnv) (total : Nat) :
    ∀ (msgs : List String) (s : Nat), ∀ x ∈ (runMsgs env total msgs s).1,
      loopEvent x = true := by
  intro msgs
  induction msgs with
  | nil =>
    intro s x hx
    simp [runMsgs] at hx
  | cons m rest ih =>
    intro s x hx
    by_cases h0 : (env s).stopFlag = true
    · have hg : (runMsgs env total (m :: rest) s).1 = [Event.log "⏹️ Stopped by user"] := by
        simp [runMsgs, h0]
      rw [hg] at hx
      simp only [List.mem_singleton] at hx
      subst hx
      rfl
    · have hg : (runMsgs env total (m :: rest) s).1 =
          (processMsg (env s) m (s + 1) total).1 ++ (runMsgs env total rest (s + 1)).1 := by
        simp [runMsgs, h0]
      rw [hg] at hx
      rcases List.mem_append.mp hx with hx | hx
      · exact loopEvent_processMsg _ _ _ _ x hx
      · exact ih (s + 1) x hx

theorem pageEvent_of_loopEvent {x : Event} (h : loopEvent x = true) : pageEvent x = true := by
  cases x <;> simp_all [loopEvent, pageEvent]

theorem pageEvent_addCookieEvents (f : Nat → Bool) :
    ∀ (cs : List Cookie) (i : Nat), ∀ x ∈ addCookieEvents f cs i, pageEvent x = true := by
  intro cs
  induction cs with
  | nil =>
    intro i x hx
    simp [addCookieEvents] at hx
  | cons ck rest ih =>
    intro i x hx
    simp only [addCookieEvents] at hx
    rcases List.mem_append.mp hx with hx | hx
    · by_cases hf : f i = true
      · rw [if_pos hf] at hx
        simp only [List.mem_singleton] at hx
        subst hx
        rfl
      · rw [if_neg hf] at hx
        simp only [List.mem_cons, List.not_mem_nil, or_false] at hx
        rcases hx with rfl | rfl <;> rfl
    · exact ih (i + 1) x hx

theorem pageEvent_afterThreadNav (env : RunEnv) (m : String) :
    ∀ x ∈ afterThreadNav env m, pageEvent x = true := by
  intro x hx
  unfold afterThreadNav at hx
  simp only [List.mem_cons] at hx
  rcases hx with rfl | hx
  · rfl
  · rcases List.mem_append.mp hx with hx | hx
    · exact pageEvent_of_loopEvent (loopEvent_runMsgs env.msgEnv _ _ 0 x hx)
    · by_cases hs : (runMsgs env.msgEnv (messageLines m).length (messageLines m) 0).2.2 = true
      · rw [if_pos hs] at hx
        simp at hx
      · rw [if_neg hs] at hx
        simp only [List.mem_singleton] at hx
        subst hx
        rfl

theorem pageEvent_afterNav (env : RunEnv) (c m t : String) :
    ∀ x ∈ afterNav env c m t, pageEvent x = true := by
  intro x hx
  unfold afterNav at hx
  by_cases hc : parse_cookies env.jsonLoads c = []
  · rw [if_pos hc] at hx
    simp only [List.mem_singleton] at hx
    subst hx
    rfl
  · rw [if_neg hc] at hx
    simp only [List.mem_cons] at hx
    rcases hx with rfl | hx
    · rfl
    · rcases List.mem_append.mp hx with hx | hx
      · exact pageEvent_addCookieEvents env.cookieAddFails _ 0 x hx
      · simp only [List.mem_cons] at hx
        rcases hx with rfl | hx
        · rfl
        · cases htn : env.threadNavFail with
          | some e =>
            rw [htn] at hx
            simp only [List.mem_singleton] at hx
            subst hx
            rfl
          | none =>
            rw [htn] at hx
            simp only [List.mem_cons] at hx
            rcases hx with rfl | rfl | hx
            · rfl
            · rfl
            · exact pageEvent_afterThreadNav env m x hx

theorem pageEvent_afterDriver (env : RunEnv) (c m t : String) :
    ∀ x ∈ afterDriver env c m t, pageEvent x = true := by
  intro x hx
  unfold afterDriver at hx
  simp only [List.mem_cons] at hx
  rcases hx with rfl | rfl | hx
  · rfl
  · rfl
  · cases hn : env.navFail with
    | some e =>
      rw [hn] at hx
      simp only [List.mem_singleton] at hx
      subst hx
      rfl
    | none =>
      rw [hn] at hx
      simp only [List.mem_cons] at hx
      rcases hx with rfl | rfl | hx
      · rfl
      · rfl
      · exact pageEvent_afterNav env c m t x hx

theorem bodyEvent_of_pageEvent {x : Event} (h : pageEvent x = true) : bodyEvent x = true := by
  cases x <;> simp_all [pageEvent, bodyEvent]

theorem bodyEvent_install (b : Bool) : ∀ x ∈ install_chrome b, bodyEvent x = true := by
  intro x hx
  cases b <;> simp [install_chrome] at hx <;> rcases hx with rfl | rfl | rfl <;> rfl

theorem bodyEvent_setup (b : Bool) : ∀ x ∈ setup_chrome_driver b, bodyEvent x = true := by
  intro x hx
  cases b
  · simp [setup_chrome_driver] at hx
    subst hx
    rfl
  · simp [setup_chrome_driver] at hx
    rcases hx with rfl | rfl <;> rfl

theorem bodyEvent_runBody (env : RunEnv) (c m t : String) :
    ∀ x ∈ runBody env c m t, bodyEvent x = true := by
  intro x hx
  unfold runBody at hx
  simp only [List.mem_cons] at hx
  rcases hx with rfl | rfl | hx
  · rfl
  · rfl
  · by_cases hs : env.stopAtStart = true
    · rw [if_pos hs] at hx
      simp only [List.mem_singleton] at hx
      subst hx
      rfl
    · rw [if_neg hs] at hx
      rcases List.mem_append.mp hx with hx | hx
      · by_cases hcp : env.chromePresent = true
        · rw [if_pos hcp] at hx
          simp at hx
        · rw [if_neg hcp] at hx
          exact bodyEvent_install env.installOk x hx
      · by_cases hfail : (!env.chromePresent && !env.installOk) = true
        · rw [if_pos hfail] at hx
          simp only [List.mem_singleton] at hx
          subst hx
          rfl
        · rw [if_neg hfail] at hx
          rcases List.mem_append.mp hx with hx | hx
          · exact bodyEvent_setup env.driverOk x hx
          · by_cases hd : env.driverOk = true
            · rw [if_pos hd] at hx
              exact bodyEvent_of_pageEvent (pageEvent_afterDriver env c m t x hx)
            · rw [if_neg hd] at hx
              simp only [List.mem_singleton] at hx
              subst hx
              rfl

theorem countEv_append (a : Event) (l1 l2 : List Event) :
    countEv a (l1 ++ l2) = countEv a l1 + countEv a l2 := by
  induction l1 with
  | nil => simp [countEv]
  | cons e rest ih =>
    simp [countEv, ih]
    omega

theorem countEv_eq_zero_of_not_mem {a : Event} : ∀ {l : List Event}, a ∉ l →
    countEv a l = 0 := by
  intro l
  induction l with
  | nil =>
    intro _
    rfl
  | cons e rest ih =>
    intro h
    have h1 : ¬(e = a) := by
      intro he
      subst he
      exact h (List.mem_cons_self e rest)
    have h2 : a ∉ rest := fun hm => h (List.mem_cons_of_mem e hm)
    simp [countEv, h1, ih h2]

theorem countEv_quit_runBody (env : RunEnv) (c m t : String) :
    countEv Event.quit (runBody env c m t) = 0 :=
  countEv_eq_zero_of_not_mem (fun h => by
    have := bodyEvent_runBody env c m t _ h
    simp [bodyEvent] at this)

theorem countEv_sentinel_runBody (env : RunEnv) (c m t : String) :
    countEv Event.sentinel (runBody env c m t) = 0 :=
  countEv_eq_zero_of_not_mem (fun h => by
    have := bodyEvent_runBody env c m t _ h
    simp [bodyEvent] at this)

theorem countEv_openDriver_afterDriver (env : RunEnv) (c m t : String) :
    countEv Event.openDriver (afterDriver env c m t) = 0 :=
  countEv_eq_zero_of_not_mem (fun h => by
    have := pageEvent_afterDriver env c m t _ h
    simp [pageEvent] at this)

theorem countEv_openDriver_runBody (env : RunEnv) (c m t : String) :
    countEv Event.openDriver (runBody env c m t) = if driverOpened env then 1 else 0 := by
  have hAD := countEv_openDriver_afterDriver env c m t
  unfold runBody driverOpened
  revert hAD
  generalize afterDriver env c m t = AD
  intro hAD
  cases hs : env.stopAtStart <;> cases hcp : env.chromePresent <;>
    cases hio : env.installOk <;> cases hd : env.driverOk <;>
    simp [install_chrome, setup_chrome_driver, countEv, countEv_append, hAD]

theorem countEv_quit_teardownPre (env : RunEnv) :
    countEv Event.quit (teardownPre env) = if driverOpened env then 1 else 0 := by
  unfold teardownPre
  cases hdo : driverOpened env <;> cases hq : env.quitFails <;> simp [countEv]

theorem countEv_openDriver_teardownPre (env : RunEnv) :
    countEv Event.openDriver (teardownPre env) = 0 := by
  unfold teardownPre
  cases hdo : driverOpened env <;> cases hq : env.quitFails <;> simp [countEv]

theorem countEv_sentinel_teardownPre (env : RunEnv) :
    countEv Event.sentinel (teardownPre env) = 0 := by
  unfold teardownPre
  cases hdo : driverOpened env <;> cases hq : env.quitFails <;> simp [countEv]

/-- C3: in every run, `driver.quit` is invoked exactly as many times
as a driver was successfully created (so exactly once per successful
`open_session`, on every exit path), the terminal sentinel is emitted
exactly once and is the final record, and whenever a driver was
created the `quit` invocation lies strictly before the sentinel — so
an observer that sees the sentinel knows the session is closed. -/
theorem teardown_once_and_sentinel_last (env : RunEnv) (c m t : String) (d : Nat) :
    countEv Event.quit (run_automation env c m t d) =
      countEv Event.openDriver (run_automation env c m t d) ∧
    countEv Event.sentinel (run_automation env c m t d) = 1 ∧
    (run_automation env c m t d).getLast? = some Event.sentinel ∧
    (driverOpened env = true →
      countEv Event.quit (run_automation env c m t d) = 1 ∧
      Event.quit ∈ (run_automation env c m t d).dropLast) := by
  have hq : countEv Event.quit (run_automation env c m t d) =
      if driverOpened env then 1 else 0 := by
    unfold run_automation teardown
    rw [countEv_append, countEv_append, countEv_quit_runBody, countEv_quit_teardownPre]
    simp [countEv]
  have ho : countEv Event.openDriver (run_automation env c m t d) =
      if driverOpened env then 1 else 0 := by
    unfold run_automation teardown
    rw [countEv_append, countEv_append, countEv_openDriver_runBody,
      countEv_openDriver_teardownPre]
    simp [countEv]
  have hsen : countEv Event.sentinel (run_automation env c m t d) = 1 := by
    unfold run_automation teardown
    rw [countEv_append, countEv_append, countEv_sentinel_runBody,
      countEv_sentinel_teardownPre]
    simp [countEv]
  refine ⟨by rw [hq, ho], hsen, ?_, ?_⟩
  · unfold run_automation teardown
    rw [← List.append_assoc]
    exact List.getLast?_concat _
  · intro hopen
    refine ⟨by rw [hq, if_pos hopen], ?_⟩
    unfold run_automation teardown teardownPre
    rw [if_pos hopen, ← List.append_assoc, List.dropLast_concat]
    exact List.mem_append_right _ (List.mem_cons_self _ _)

theorem teardown_once_and_sentinel_last_w :
    countEv Event.quit (run_automation okEnv "c_user=1" "Hi" "555" 3) = 1 ∧
    Event.quit ∈ (run_automation okEnv "c_user=1" "Hi" "555" 3).dropLast :=
  (teardown_once_and_sentinel_last okEnv "c_user=1" "Hi" "555" 3).2.2.2 rfl

/-- C4 fails as stated: the code merely logs the post-navigation URL
and performs no inspection of it — in a run whose conversation
navigation lands on the login page, no abort happens and a message is
still sent (the confirm key is pressed once). -/
theorem no_auth_redirect_detection_cex :
    loginEnv.currentUrl = "https://www.facebook.com/login/" ∧
    Event.log ("🔗 URL: " ++ loginEnv.currentUrl) ∈
      run_automation loginEnv "c_user=1" "Hi" "555" 3 ∧
    countEv Event.pressEnter (run_automation loginEnv "c_user=1" "Hi" "555" 3) = 1 := by
  refine ⟨rfl, by decide, by decide⟩

/-- C4 (amended): after the conversation navigation the caller only
logs the resulting URL; no authentication-redirect detection exists,
and the run proceeds to the message-dispatch phase regardless of the
landing URL — with no hypothesis on `currentUrl`, the trace contains
the URL log, the conversation navigation, and the message-count log
that precedes the dispatch loop. -/
theorem url_logged_not_inspected (env : RunEnv) (c m t : String) (d : Nat)
    (h1 : env.stopAtStart = false) (h2 : env.chromePresent = true)
    (h3 : env.driverOk = true) (h4 : env.navFail = none)
    (h5 : ¬parse_cookies env.jsonLoads c = []) (h6 : env.threadNavFail = none) :
    Event.log ("🔗 URL: " ++ env.currentUrl) ∈ run_automation env c m t d ∧
    Event.navigate ("https://www.facebook.com/messages/t/" ++ t) ∈
      run_automation env c m t d ∧
    Event.log ("📝 Messages to send: " ++ toString (messageLines m).length) ∈
      run_automation env c m t d := by
  unfold run_automation runBody afterDriver afterNav afterThreadNav
  rw [h1, h2, h4, h6, if_neg h5]
  simp [h3, List.mem_append]

theorem url_logged_not_inspected_w :
    Event.log ("🔗 URL: " ++ loginEnv.currentUrl) ∈
      run_automation loginEnv "c_user=1" "Hi" "555" 3 :=
  (url_logged_not_inspected loginEnv "c_user=1" "Hi" "555" 3 rfl rfl rfl rfl
    (by decide) rfl).1

/-- C10: if the stop flag is already set when the worker starts, the
run performs no setup work at all — the trace is exactly the two entry
logs, the cancellation log, and the sentinel: no installation, no
driver creation, no navigation, no cookie injection, no message
processing, and no teardown `quit`. -/
theorem cancelled_before_start_no_setup (env : RunEnv) (c m t : String) (d : Nat)
    (h : env.stopAtStart = true) :
    run_automation env c m t d =
      [Event.log "🚀 Starting automation...",
       Event.log "⚙️ Setting up Chrome browser...",
       Event.log "⏹️ Automation cancelled before start by user.",
       Event.sentinel] := by
  unfold run_automation runBody teardown teardownPre driverOpened
  simp [h]

theorem cancelled_before_start_no_setup_w :
    run_automation stopEnv "c" "m" "t" 1 =
      [Event.log "🚀 Starting automation...",
       Event.log "⚙️ Setting up Chrome browser...",
       Event.log "⏹️ Automation cancelled before start by user.",
       Event.sentinel] :=
  cancelled_before_start_no_setup stopEnv "c" "m" "t" 1 rfl
